import Mathlib

/-!
The package xauth: signed session tokens and identity propagation

A shallow embedding of the Go package `xauth` (`auth.go`, `context.go`).

* Go strings are Lean strings (the valid UTF-8 ones), byte slices are lists of octets.
* `int`, `int64` and `time.Duration` are integers; the one place where the source can
  overflow, the product `time.Hour * time.Duration(hours)`, wraps to 64 bits explicitly.
* `time.Time` is an instant counted in nanoseconds since the Unix epoch; every call of
  `time.Now()` in the source is an explicit clock-reading argument, in source order.
* `(value, error)` results are `Except` values.
* The third-party pieces the package calls (base64url, `encoding/json`, the SHA-2 hash
  functions) are fields of a parameter `Lib`; the control flow of `golang-jwt/jwt/v5`
  (release line 5.2) around them (`SignedString`, `ParseWithClaims`, the HMAC signing
  method of `crypto/hmac`, the claims validator) is written out.
* `context.Context` values are references into an allocation log of context nodes.
-/

set_option autoImplicit false

namespace xauth

/-! ## Go values -/

/-- Go byte slice. -/
abbrev Bytes := List UInt8

/-- The conversion `[]byte(s)`: the UTF-8 octets of a string. -/
def stringBytes (s : String) : Bytes :=
  s.data.flatMap String.utf8EncodeChar

/-- Two's-complement wrap of an integer to the `int64` range. -/
def wrapInt64 (x : Int) : Int :=
  (x + 9223372036854775808) % 18446744073709551616 - 9223372036854775808

/-- The values of type `int64`. -/
def IsInt64 (x : Int) : Prop :=
  -9223372036854775808 ≤ x ∧ x ≤ 9223372036854775807

instance (x : Int) : Decidable (IsInt64 x) := by
  unfold IsInt64; infer_instance

/-! ## package time -/

/-- The type `time.Time`, as nanoseconds since the Unix epoch. -/
abbrev Time := Int

/-- The type `time.Duration`: an `int64` count of nanoseconds. -/
abbrev Duration := Int

/-- The constant `time.Second`. -/
def Second : Duration := 1000000000

/-- The constant `time.Hour`. -/
def Hour : Duration := 3600000000000

/-- Conversion `time.Duration(n)` of an integer. -/
def Duration.ofInt (n : Int) : Duration := wrapInt64 n

/-- Product of two durations, in `int64` arithmetic. -/
def Duration.mul (a b : Duration) : Duration := wrapInt64 (a * b)

/-- The method `Time.Add`. -/
def Time.Add (t : Time) (d : Duration) : Time := t + d

/-- The method `Time.Truncate`: round down to a multiple of `d` (no change when `d ≤ 0`). -/
def Time.Truncate (t : Time) (d : Duration) : Time :=
  if d ≤ 0 then t else t - t % d

/-- The method `Time.Before`. -/
def Time.Before (t u : Time) : Bool := decide (t < u)

/-- The method `Time.Unix`: whole seconds since the epoch. -/
def Time.Unix (t : Time) : Int := t / 1000000000

/-- Clock readings whose `UnixNano` fits `int64` (years 1678 to 2262). -/
def Time.InRange (t : Time) : Prop := IsInt64 t

instance (t : Time) : Decidable (Time.InRange t) := by
  unfold Time.InRange; infer_instance

/-! ## Data model (`auth.go`) -/

/-- The struct `Config`. -/
structure Config where
  SigningKey : String
  AccessTokenExpiryHours : Int
  RefreshTokenExpiryHours : Int
deriving DecidableEq, Repr

/-- The struct `jwt.RegisteredClaims`; a `nil` numeric date is `none`. -/
structure RegisteredClaims where
  Issuer : String := ""
  Subject : String := ""
  Audience : List String := []
  ExpiresAt : Option Time := none
  NotBefore : Option Time := none
  IssuedAt : Option Time := none
  ID : String := ""
deriving DecidableEq, Repr

/-- The struct `Claims`, which embeds `jwt.RegisteredClaims`. -/
structure Claims extends RegisteredClaims where
  UserID : Int
  Role : String
deriving DecidableEq, Repr

/-- The struct `jwtService`. -/
structure jwtService where
  cfg : Config
  jwtKey : Bytes
deriving DecidableEq, Repr

/-- The constructor `NewService`. -/
def NewService (cfg : Config) : Except String jwtService :=
  if cfg.SigningKey = "" then
    .error "auth config: SigningKey is required"
  else
    let cfg := if cfg.AccessTokenExpiryHours = 0 then
      { cfg with AccessTokenExpiryHours := 1 } else cfg
    let cfg := if cfg.RefreshTokenExpiryHours = 0 then
      { cfg with RefreshTokenExpiryHours := 72 } else cfg
    .ok { cfg := cfg, jwtKey := stringBytes cfg.SigningKey }

/-- The function `jwt.NewNumericDate`: the instant truncated to `jwt.TimePrecision`,
which is one second. -/
def NewNumericDate (t : Time) : Time := Time.Truncate t Second

/-- The claim set `accessClaims` of `CreateTokens`; `t1` and `t2` are the first and the
second reading of `time.Now()`. -/
def accessClaims (s : jwtService) (t1 t2 : Time) (userID : Int) (role : String) : Claims :=
  let accessExpiry :=
    Time.Add t1 (Duration.mul Hour (Duration.ofInt s.cfg.AccessTokenExpiryHours))
  { UserID := userID
    Role := role
    ExpiresAt := some (NewNumericDate accessExpiry)
    IssuedAt := some (NewNumericDate t2) }

/-- The claim set `refreshClaims` of `CreateTokens`; `t3` and `t4` are the third and the
fourth reading of `time.Now()`. -/
def refreshClaims (s : jwtService) (t3 t4 : Time) (userID : Int) (role : String) : Claims :=
  let refreshExpiry :=
    Time.Add t3 (Duration.mul Hour (Duration.ofInt s.cfg.RefreshTokenExpiryHours))
  { UserID := userID
    Role := role
    ExpiresAt := some (NewNumericDate refreshExpiry)
    IssuedAt := some (NewNumericDate t4) }

/-! ## package `golang-jwt/jwt/v5`: errors -/

/-- The sentinel error values of the library. -/
inductive Sentinel
  | ErrTokenMalformed
  | ErrTokenUnverifiable
  | ErrTokenSignatureInvalid
  | ErrTokenInvalidClaims
  | ErrTokenExpired
  | ErrTokenNotValidYet
  | ErrSignatureInvalid
  | ErrInvalidKeyType
  | ErrHashUnavailable
deriving DecidableEq, Repr

/-- The message of a sentinel error. -/
def Sentinel.Error : Sentinel → String
  | .ErrTokenMalformed => "token is malformed"
  | .ErrTokenUnverifiable => "token is unverifiable"
  | .ErrTokenSignatureInvalid => "token signature is invalid"
  | .ErrTokenInvalidClaims => "token has invalid claims"
  | .ErrTokenExpired => "token is expired"
  | .ErrTokenNotValidYet => "token is not valid yet"
  | .ErrSignatureInvalid => "signature is invalid"
  | .ErrInvalidKeyType => "key is of invalid type"
  | .ErrHashUnavailable => "the requested hash function is unavailable"

/-- A Go `error` value as the library builds it: a sentinel, an error of which only the
message is known (`fmt.Errorf` without `%w`, errors of base64 and JSON decoding), the join of
the validator's findings, or `newError(message, err, more...)` with no or one further cause. -/
inductive GoError
  | sentinel (e : Sentinel)
  | foreign (msg : String)
  | joined (errs : List Sentinel)
  | newError (message : String) (err : Sentinel)
  | newErrorMore (message : String) (err : Sentinel) (more : GoError)
deriving DecidableEq, Repr

/-- The method `Error()`: the message of an error value. -/
def GoError.Error : GoError → String
  | .sentinel e => e.Error
  | .foreign msg => msg
  | .joined errs => ", ".intercalate (errs.map Sentinel.Error)
  | .newError message err =>
      if message = "" then err.Error else err.Error ++ ": " ++ message
  | .newErrorMore message err more =>
      (if message = "" then err.Error else err.Error ++ ": " ++ message) ++ ": " ++ more.Error

/-- The value of `fmt.Errorf(format, ...)` in `auth.go`: its message and, when the format has
a `%w` verb, the error it wraps. -/
structure WrapError where
  message : String
  cause : Option GoError
deriving DecidableEq, Repr

/-! ## package `golang-jwt/jwt/v5`: signing methods -/

/-- The hash functions of the registered signing methods. -/
inductive HashAlg
  | SHA256
  | SHA384
  | SHA512
deriving DecidableEq, Repr

/-- Block size in bytes of a hash function (`hash.Hash.BlockSize`). -/
def HashAlg.BlockSize : HashAlg → Nat
  | .SHA256 => 64
  | .SHA384 => 128
  | .SHA512 => 128

/-- The registered signing methods, by their Go type: `*SigningMethodHMAC`,
`*SigningMethodRSA`, `*SigningMethodRSAPSS`, `*SigningMethodECDSA`, `*SigningMethodEd25519`
and the type of `SigningMethodNone`. -/
inductive SigningMethod
  | HMAC (Hash : HashAlg)
  | RSA (Hash : HashAlg)
  | RSAPSS (Hash : HashAlg)
  | ECDSA (Hash : HashAlg)
  | Ed25519
  | none
deriving DecidableEq, Repr

/-- The variable `jwt.SigningMethodHS256`. -/
def SigningMethodHS256 : SigningMethod := .HMAC .SHA256

/-- The method `Alg()`. -/
def SigningMethod.Alg : SigningMethod → String
  | .HMAC .SHA256 => "HS256"
  | .HMAC .SHA384 => "HS384"
  | .HMAC .SHA512 => "HS512"
  | .RSA .SHA256 => "RS256"
  | .RSA .SHA384 => "RS384"
  | .RSA .SHA512 => "RS512"
  | .RSAPSS .SHA256 => "PS256"
  | .RSAPSS .SHA384 => "PS384"
  | .RSAPSS .SHA512 => "PS512"
  | .ECDSA .SHA256 => "ES256"
  | .ECDSA .SHA384 => "ES384"
  | .ECDSA .SHA512 => "ES512"
  | .Ed25519 => "EdDSA"
  | .none => "none"

/-- The registry `signingMethods`, as the `init` functions of the library fill it. -/
def signingMethods : List (String × SigningMethod) :=
  [("HS256", .HMAC .SHA256), ("HS384", .HMAC .SHA384), ("HS512", .HMAC .SHA512),
   ("RS256", .RSA .SHA256), ("RS384", .RSA .SHA384), ("RS512", .RSA .SHA512),
   ("PS256", .RSAPSS .SHA256), ("PS384", .RSAPSS .SHA384), ("PS512", .RSAPSS .SHA512),
   ("ES256", .ECDSA .SHA256), ("ES384", .ECDSA .SHA384), ("ES512", .ECDSA .SHA512),
   ("EdDSA", .Ed25519), ("none", .none)]

/-- The function `jwt.GetSigningMethod`: the method registered under a name, `none` for the
Go `nil`. -/
def GetSigningMethod (alg : String) : Option SigningMethod :=
  signingMethods.lookup alg

/-- The signing methods of Go type `*jwt.SigningMethodHMAC`. -/
def SigningMethod.isHMAC : SigningMethod → Bool
  | .HMAC _ => true
  | _ => false

/-- The entries of a token header this package reads: `typ` and `alg`, each present only
when the header map holds a string under that name. -/
structure Header where
  typ : Option String
  alg : Option String
deriving DecidableEq, Repr

/-- The third-party primitives, taken as parameters. -/
structure Lib where
  /-- The method `Token.EncodeSegment`: unpadded base64url. -/
  EncodeSegment : Bytes → String
  /-- The method `Parser.DecodeSegment`: the octets, or the decoder's message. -/
  DecodeSegment : String → Except String Bytes
  /-- Go `json.Marshal` of a token header. -/
  marshalHeader : Header → Except String Bytes
  /-- Go `json.Unmarshal` into a token header. -/
  unmarshalHeader : Bytes → Except String Header
  /-- Go `json.Marshal` of a `*Claims`. -/
  marshalClaims : Claims → Except String Bytes
  /-- Go `json.Unmarshal` into a `*Claims`. -/
  unmarshalClaims : Bytes → Except String Claims
  /-- The method `crypto.Hash.Available`. -/
  hashAvailable : HashAlg → Bool
  /-- The digest of a message under a hash function. -/
  hashSum : HashAlg → Bytes → Bytes

/-- The MAC of `crypto/hmac`: a key longer than the block is hashed first, the key is copied
into a zeroed block, and the digest is `H(opad ‖ H(ipad ‖ msg))`. -/
def hmacSum (lib : Lib) (h : HashAlg) (key msg : Bytes) : Bytes :=
  let blocksize := h.BlockSize
  let key := if key.length > blocksize then lib.hashSum h key else key
  let block := (key ++ List.replicate blocksize 0).take blocksize
  let ipad := block.map (fun b => b ^^^ 0x36)
  let opad := block.map (fun b => b ^^^ 0x5c)
  lib.hashSum h (opad ++ lib.hashSum h (ipad ++ msg))

/-- The method `Sign` of a signing method, for a key of Go type `[]byte`; the methods other
than HMAC expect keys of their own types (`auth.go` signs with HS256 only). -/
def SigningMethod.Sign (lib : Lib) (m : SigningMethod) (signingString : String)
    (key : Bytes) : Except GoError Bytes :=
  match m with
  | .HMAC h =>
    if lib.hashAvailable h then .ok (hmacSum lib h key (stringBytes signingString))
    else .error (.sentinel .ErrHashUnavailable)
  | _ => .error (.sentinel .ErrInvalidKeyType)

/-- The method `Verify` of a signing method, for a key of Go type `[]byte`. The method
`none` accepts only its own marker as key, and the asymmetric methods expect public keys of
their own types (of their errors only the sentinel is kept; `auth.go` does not reach them,
its key function refuses these methods first). -/
def SigningMethod.Verify (lib : Lib) (m : SigningMethod) (signingString : String)
    (sig key : Bytes) : Except GoError Unit :=
  match m with
  | .HMAC h =>
    if lib.hashAvailable h then
      if sig = hmacSum lib h key (stringBytes signingString) then .ok ()
      else .error (.sentinel .ErrSignatureInvalid)
    else .error (.sentinel .ErrHashUnavailable)
  | .none =>
    .error (.newError "\x27none\x27 signature type is not allowed" .ErrTokenUnverifiable)
  | _ => .error (.sentinel .ErrInvalidKeyType)

/-! ## package `golang-jwt/jwt/v5`: tokens -/

/-- The struct `jwt.Token`. -/
structure Token where
  Raw : String
  Method : SigningMethod
  Header : Header
  Claims : Claims
  Signature : Bytes
  Valid : Bool
deriving DecidableEq, Repr

/-- The function `jwt.NewWithClaims`. -/
def NewWithClaims (method : SigningMethod) (claims : Claims) : Token :=
  { Raw := ""
    Method := method
    Header := { typ := some "JWT", alg := some method.Alg }
    Claims := claims
    Signature := []
    Valid := false }

/-- The method `Token.SigningString`. -/
def Token.SigningString (lib : Lib) (t : Token) : Except GoError String :=
  match lib.marshalHeader t.Header with
  | .error e => .error (.foreign e)
  | .ok h =>
    match lib.marshalClaims t.Claims with
    | .error e => .error (.foreign e)
    | .ok c => .ok (lib.EncodeSegment h ++ "." ++ lib.EncodeSegment c)

/-- The method `Token.SignedString`. -/
def Token.SignedString (lib : Lib) (t : Token) (key : Bytes) : Except GoError String :=
  match t.SigningString lib with
  | .error e => .error e
  | .ok sstr =>
    match t.Method.Sign lib sstr key with
    | .error e => .error e
    | .ok sig => .ok (sstr ++ "." ++ lib.EncodeSegment sig)

/-- The method `CreateTokens`; `t1` to `t4` are its four readings of `time.Now()`, in source
order. -/
def CreateTokens (lib : Lib) (s : jwtService) (t1 t2 t3 t4 : Time) (userID : Int)
    (role : String) : Except WrapError (String × String) :=
  let accessToken := NewWithClaims SigningMethodHS256 (accessClaims s t1 t2 userID role)
  match accessToken.SignedString lib s.jwtKey with
  | .error err =>
    .error { message := "failed to sign access token: " ++ err.Error, cause := some err }
  | .ok accTokenString =>
    let refreshToken := NewWithClaims SigningMethodHS256 (refreshClaims s t3 t4 userID role)
    match refreshToken.SignedString lib s.jwtKey with
    | .error err =>
      .error { message := "failed to sign refresh token: " ++ err.Error, cause := some err }
    | .ok refTokenString => .ok (accTokenString, refTokenString)

/-- Splitting a character sequence at every occurrence of a separator. -/
def splitChars (sep : Char) : List Char → List (List Char)
  | [] => [[]]
  | c :: cs =>
    if c = sep then [] :: splitChars sep cs
    else
      match splitChars sep cs with
      | [] => [[c]]
      | p :: ps => (c :: p) :: ps

/-- The function `strings.Split`, for a separator of one character. -/
def Split (s : String) (sep : Char) : List String :=
  (splitChars sep s.data).map String.mk

/-- The method `Parser.ParseUnverified` into a `*Claims`: the token and its three
segments. -/
def ParseUnverified (lib : Lib) (tokenString : String) :
    Except GoError (Token × String × String × String) :=
  match Split tokenString '.' with
  | [p0, p1, p2] =>
    match lib.DecodeSegment p0 with
    | .error e =>
      .error (.newErrorMore "could not base64 decode header" .ErrTokenMalformed (.foreign e))
    | .ok headerBytes =>
      match lib.unmarshalHeader headerBytes with
      | .error e =>
        .error (.newErrorMore "could not JSON decode header" .ErrTokenMalformed (.foreign e))
      | .ok header =>
        match lib.DecodeSegment p1 with
        | .error e =>
          .error (.newErrorMore "could not base64 decode claim" .ErrTokenMalformed (.foreign e))
        | .ok claimBytes =>
          match lib.unmarshalClaims claimBytes with
          | .error e =>
            .error (.newErrorMore "could not JSON decode claim" .ErrTokenMalformed (.foreign e))
          | .ok claims =>
            match header.alg with
            | some method =>
              match GetSigningMethod method with
              | some m =>
                .ok ({ Raw := tokenString, Method := m, Header := header, Claims := claims,
                       Signature := [], Valid := false }, p0, p1, p2)
              | none =>
                .error (.newError "signing method (alg) is unavailable" .ErrTokenUnverifiable)
            | none =>
              .error (.newError "signing method (alg) is unspecified" .ErrTokenUnverifiable)
  | _ => .error (.newError "token contains an invalid number of segments" .ErrTokenMalformed)

/-- The method `Validator.Validate` with the default options (no leeway, no expected
issuer, subject or audience, issued-at not checked): expiry, then not-before. -/
def Validate (now : Time) (claims : Claims) : Except GoError Unit :=
  let errs : List Sentinel :=
    (match claims.ExpiresAt with
      | some exp => if Time.Before now exp then [] else [.ErrTokenExpired]
      | none => [])
    ++
    (match claims.NotBefore with
      | some nbf => if !(Time.Before now nbf) then [] else [.ErrTokenNotValidYet]
      | none => [])
  if errs.isEmpty then .ok () else .error (.joined errs)

/-- The method `Parser.ParseWithClaims` with the default parser; `now` is the validator's
reading of `time.Now()`. The token the library returns next to an error is dropped: the
caller does not read it. -/
def ParseWithClaims (lib : Lib) (now : Time) (tokenString : String)
    (keyFunc : Token → Except GoError Bytes) : Except GoError Token :=
  match ParseUnverified lib tokenString with
  | .error err => .error err
  | .ok (token, p0, p1, p2) =>
    match lib.DecodeSegment p2 with
    | .error e =>
      .error (.newErrorMore "could not base64 decode signature" .ErrTokenMalformed (.foreign e))
    | .ok sig =>
      let token := { token with Signature := sig }
      let text := p0 ++ "." ++ p1
      match keyFunc token with
      | .error err =>
        .error (.newErrorMore "error while executing keyfunc" .ErrTokenUnverifiable err)
      | .ok key =>
        match token.Method.Verify lib text token.Signature key with
        | .error err => .error (.newErrorMore "" .ErrTokenSignatureInvalid err)
        | .ok _ =>
          match Validate now token.Claims with
          | .error err => .error (.newErrorMore "" .ErrTokenInvalidClaims err)
          | .ok _ => .ok { token with Valid := true }

/-! ## `VerifyAccessToken` (`auth.go`) -/

/-- Formatting of `token.Header["alg"]` with the verb `%v`. -/
def fmtAlg (h : Header) : String :=
  match h.alg with
  | some a => a
  | none => "<nil>"

/-- The key function `VerifyAccessToken` passes to the parser. -/
def keyFunc (s : jwtService) (token : Token) : Except GoError Bytes :=
  match token.Method with
  | .HMAC _ => .ok s.jwtKey
  | _ => .error (.foreign ("unexpected signing method: " ++ fmtAlg token.Header))

/-- The method `VerifyAccessToken`; `now` is the reading of `time.Now()` taken by the
library while it validates the claims. -/
def VerifyAccessToken (lib : Lib) (s : jwtService) (now : Time) (tokenString : String) :
    Except WrapError Claims :=
  match ParseWithClaims lib now tokenString (keyFunc s) with
  | .error err =>
    .error { message := "failed to parse token: " ++ err.Error, cause := some err }
  | .ok token =>
    if token.Valid then .ok token.Claims
    else .error { message := "invalid token", cause := none }

/-! ## What is assumed of the third-party primitives -/

/-- The claim sets JSON carries exactly: `uid` an `int64`, numeric dates whole seconds of at
most 2^53 in absolute value (the decoder reads them as 64-bit floats). -/
def Claims.Representable (c : Claims) : Prop :=
  IsInt64 c.UserID ∧
  ∀ d, (c.ExpiresAt = some d ∨ c.NotBefore = some d ∨ c.IssuedAt = some d) →
    d % 1000000000 = 0 ∧ -9007199254740992 ≤ d / 1000000000 ∧ d / 1000000000 ≤ 9007199254740992

/-- The laws of the primitives the proofs rely on: base64url decoding inverts encoding, an
encoded segment holds no period, and JSON decoding inverts encoding on headers and on
representable claim sets. -/
structure Lib.Lawful (lib : Lib) : Prop where
  decode_encode : ∀ b, lib.DecodeSegment (lib.EncodeSegment b) = .ok b
  encode_no_period : ∀ b, '.' ∉ (lib.EncodeSegment b).data
  header_roundtrip : ∀ h b, lib.marshalHeader h = .ok b → lib.unmarshalHeader b = .ok h
  claims_roundtrip : ∀ c b, c.Representable → lib.marshalClaims c = .ok b →
    lib.unmarshalClaims b = .ok c

/-! ## Identity propagation (`context.go`) -/

/-- A key of a context value: a value of the unexported string type `contextKey` of this
package, or a key of any other type. -/
inductive Key
  | contextKey (s : String)
  | foreign (id : Nat)
deriving DecidableEq, Repr

/-- The constant `claimsKey`. -/
def claimsKey : Key := .contextKey "xauth_claims"

/-- A pointer `*Claims`: `none` for `nil`, else the address of a claim set. -/
abbrev ClaimsPtr := Option Nat

/-- A value of interface type `any` held in a context: the `nil` interface, a `*Claims`
(a `nil` pointer included) or a value of another type. -/
inductive Any
  | nil
  | claims (p : ClaimsPtr)
  | other (v : Nat)
deriving DecidableEq, Repr

/-- A reference to a context. -/
abbrev Context := Nat

/-- A context object. `emptyCtx` is what `context.Background()` and `context.TODO()` give,
`valueCtx` what `context.WithValue` allocates, `derived` a cancellation or deadline context
(its `Value` asks the parent), `custom` any other implementation, with its `Value` method. -/
inductive CtxNode
  | emptyCtx
  | valueCtx (parent : Context) (key : Key) (val : Any)
  | derived (parent : Context)
  | custom (value : Key → Any)

/-- The context objects allocated so far, newest first; a context is referred to by the
number of objects allocated before it. -/
abbrev Heap := List CtxNode

/-- The method `Context.Value`: the chain of parents is walked until a node answers. -/
def Heap.Value : Heap → Context → Key → Any
  | [], _, _ => .nil
  | node :: older, ctx, key =>
    if ctx = older.length then
      match node with
      | .emptyCtx => .nil
      | .valueCtx parent k val => if k = key then val else Heap.Value older parent key
      | .derived parent => Heap.Value older parent key
      | .custom value => value key
    else Heap.Value older ctx key

/-- The function `context.WithValue`: a new `valueCtx` is allocated, nothing else changes. -/
def WithValue (h : Heap) (parent : Context) (key : Key) (val : Any) : Heap × Context :=
  (.valueCtx parent key val :: h, h.length)

/-- The function `NewContextWithClaims`. -/
def NewContextWithClaims (h : Heap) (ctx : Context) (claims : ClaimsPtr) : Heap × Context :=
  WithValue h ctx claimsKey (.claims claims)

/-- The function `ClaimsFromContext`: the type assertion to `*Claims` and its `ok`. -/
def ClaimsFromContext (h : Heap) (ctx : Context) : ClaimsPtr × Bool :=
  match h.Value ctx claimsKey with
  | .claims p => (p, true)
  | _ => (none, false)

/-! ## A lawful instance of the primitives -/

theorem byte_toNat_ofNat (n : Nat) (h : n < 256) : (UInt8.ofNat n).toNat = n := by
  simp [UInt8.toNat, UInt8.ofNat, Nat.mod_eq_of_lt h]

theorem byte_toNat_lt (b : UInt8) : b.toNat < 256 := by
  simp only [UInt8.toNat]
  exact b.toBitVec.isLt

theorem byte_ofNat_toNat (b : UInt8) : UInt8.ofNat b.toNat = b :=
  UInt8.ext (byte_toNat_ofNat _ (byte_toNat_lt b))

/-- A serialisation of a type into octets, with the parser that inverts it. -/
class Serial (α : Type) where
  enc : α → Bytes
  dec : Bytes → Option (α × Bytes)
  dec_enc : ∀ a r, dec (enc a ++ r) = some (a, r)

/-- A number in groups of seven bits, least significant first, the top bit set on all groups
but the last. -/
def encNat (n : Nat) : Bytes :=
  if n < 128 then [UInt8.ofNat n] else UInt8.ofNat (n % 128 + 128) :: encNat (n / 128)
termination_by n
decreasing_by omega

/-- Parser of `encNat`. -/
def decNat : Bytes → Option (Nat × Bytes)
  | [] => none
  | b :: bs =>
    if b.toNat < 128 then some (b.toNat, bs)
    else
      match decNat bs with
      | some (m, r) => some (b.toNat - 128 + 128 * m, r)
      | none => none

theorem decNat_encNat (n : Nat) (r : Bytes) : decNat (encNat n ++ r) = some (n, r) := by
  induction n using Nat.strong_induction_on with
  | _ n ih =>
    rw [encNat]
    split
    · rename_i h
      simp [decNat, byte_toNat_ofNat n (by omega), h]
    · rename_i h
      have h1 : n % 128 + 128 < 256 := by omega
      have h2 := ih (n / 128) (by omega)
      have h3 : ¬ (n % 128 + 128 < 128) := by omega
      rw [List.cons_append, decNat, byte_toNat_ofNat _ h1, if_neg h3, h2]
      simp only [Option.some.injEq, Prod.mk.injEq, and_true]
      omega

instance : Serial Nat := ⟨encNat, decNat, decNat_encNat⟩

/-- An integer: a sign octet, then the magnitude. -/
def encInt (z : Int) : Bytes :=
  if 0 ≤ z then 0 :: encNat z.toNat else 1 :: encNat (-z).toNat

/-- Parser of `encInt`. -/
def decInt : Bytes → Option (Int × Bytes)
  | [] => none
  | b :: bs =>
    match decNat bs with
    | some (m, r) => if b = 0 then some ((m : Int), r) else some (-(m : Int), r)
    | none => none

theorem decInt_encInt (z : Int) (r : Bytes) : decInt (encInt z ++ r) = some (z, r) := by
  unfold encInt
  split
  · rename_i h
    simp [decInt, decNat_encNat, Int.toNat_of_nonneg h]
  · rename_i h
    have h0 : (1 : UInt8) ≠ 0 := by decide
    simp only [List.cons_append, decInt, decNat_encNat, h0, if_false]
    congr 2
    omega

instance : Serial Int := ⟨encInt, decInt, decInt_encInt⟩

instance : Serial Char where
  enc c := encNat c.toNat
  dec b :=
    match decNat b with
    | some (n, r) => some (Char.ofNat n, r)
    | none => none
  dec_enc c r := by simp [decNat_encNat, Char.ofNat_toNat]

/-- The elements of a list, one after the other. -/
def encItems {α : Type} [Serial α] : List α → Bytes
  | [] => []
  | a :: l => Serial.enc a ++ encItems l

/-- Parser of a given number of elements. -/
def decItems {α : Type} [Serial α] : Nat → Bytes → Option (List α × Bytes)
  | 0, b => some ([], b)
  | n + 1, b =>
    match (Serial.dec b : Option (α × Bytes)) with
    | some (a, r) =>
      match decItems n r with
      | some (l, r) => some (a :: l, r)
      | none => none
    | none => none

theorem decItems_encItems {α : Type} [Serial α] (l : List α) (r : Bytes) :
    decItems l.length (encItems l ++ r) = some (l, r) := by
  induction l with
  | nil => simp [decItems, encItems]
  | cons a l ih => simp [decItems, encItems, List.append_assoc, Serial.dec_enc, ih]

instance {α : Type} [Serial α] : Serial (List α) where
  enc l := encNat l.length ++ encItems l
  dec b :=
    match decNat b with
    | some (n, r) => decItems n r
    | none => none
  dec_enc l r := by simp [List.append_assoc, decNat_encNat, decItems_encItems]

instance : Serial String where
  enc s := Serial.enc s.data
  dec b :=
    match (Serial.dec b : Option (List Char × Bytes)) with
    | some (l, r) => some (String.mk l, r)
    | none => none
  dec_enc s r := by simp [Serial.dec_enc]

instance {α : Type} [Serial α] : Serial (Option α) where
  enc
    | none => [0]
    | some a => 1 :: Serial.enc a
  dec
    | [] => none
    | b :: bs =>
      if b = 0 then some (none, bs)
      else
        match (Serial.dec bs : Option (α × Bytes)) with
        | some (a, r) => some (some a, r)
        | none => none
  dec_enc a r := by
    cases a with
    | none => simp
    | some a =>
      have h0 : (1 : UInt8) ≠ 0 := by decide
      simp [h0, Serial.dec_enc]

instance {α β : Type} [Serial α] [Serial β] : Serial (α × β) where
  enc p := Serial.enc p.1 ++ Serial.enc p.2
  dec b :=
    match (Serial.dec b : Option (α × Bytes)) with
    | some (a, r) =>
      match (Serial.dec r : Option (β × Bytes)) with
      | some (c, r) => some ((a, c), r)
      | none => none
    | none => none
  dec_enc p r := by simp [List.append_assoc, Serial.dec_enc]

/-- The fields of a header, as a pair. -/
def Header.toProd (h : Header) : Option String × Option String := (h.typ, h.alg)

/-- The header with the fields of a pair. -/
def Header.ofProd (p : Option String × Option String) : Header := { typ := p.1, alg := p.2 }

/-- The fields of a claim set, as a tuple. -/
def Claims.toProd (c : Claims) :
    Int × String × String × String × List String × Option Int × Option Int × Option Int
      × String :=
  (c.UserID, c.Role, c.Issuer, c.Subject, c.Audience, c.ExpiresAt, c.NotBefore, c.IssuedAt,
    c.ID)

/-- The claim set with the fields of a tuple. -/
def Claims.ofProd
    (p : Int × String × String × String × List String × Option Int × Option Int × Option Int
      × String) : Claims :=
  { UserID := p.1
    Role := p.2.1
    Issuer := p.2.2.1
    Subject := p.2.2.2.1
    Audience := p.2.2.2.2.1
    ExpiresAt := p.2.2.2.2.2.1
    NotBefore := p.2.2.2.2.2.2.1
    IssuedAt := p.2.2.2.2.2.2.2.1
    ID := p.2.2.2.2.2.2.2.2 }

/-- A whole input parsed as one value. -/
def decAll {α : Type} [Serial α] (b : Bytes) : Except String α :=
  match (Serial.dec b : Option (α × Bytes)) with
  | some (a, []) => .ok a
  | _ => .error "invalid character"

theorem decAll_enc {α : Type} [Serial α] (a : α) : decAll (Serial.enc a) = .ok a := by
  have h := Serial.dec_enc a []
  rw [List.append_nil] at h
  simp [decAll, h]

/-- A segment encoding with one character for an octet, none of them a period. -/
def plainEncode (b : Bytes) : String :=
  String.mk (b.map (fun x => Char.ofNat (x.toNat + 256)))

/-- Parser of `plainEncode`. -/
def plainDecode : List Char → Except String Bytes
  | [] => .ok []
  | c :: cs =>
    if 256 ≤ c.toNat ∧ c.toNat < 512 then
      match plainDecode cs with
      | .ok b => .ok (UInt8.ofNat (c.toNat - 256) :: b)
      | .error e => .error e
    else .error "illegal base64 data"

/-- An instance of the primitives: the one-character segment encoding, the serialisation
above for headers and claim sets, every hash function available and the identity. -/
def plainLib : Lib where
  EncodeSegment := plainEncode
  DecodeSegment := fun s => plainDecode s.data
  marshalHeader := fun h => .ok (Serial.enc h.toProd)
  unmarshalHeader := fun b =>
    match decAll b with
    | .ok p => .ok (Header.ofProd p)
    | .error e => .error e
  marshalClaims := fun c => .ok (Serial.enc c.toProd)
  unmarshalClaims := fun b =>
    match decAll b with
    | .ok p => .ok (Claims.ofProd p)
    | .error e => .error e
  hashAvailable := fun _ => true
  hashSum := fun _ b => b


/-! ## Construction of the service -/

theorem NewService_ok (cfg : Config) (hkey : cfg.SigningKey ≠ "") :
    NewService cfg = .ok
      { cfg :=
          { SigningKey := cfg.SigningKey
            AccessTokenExpiryHours :=
              if cfg.AccessTokenExpiryHours = 0 then 1 else cfg.AccessTokenExpiryHours
            RefreshTokenExpiryHours :=
              if cfg.RefreshTokenExpiryHours = 0 then 72 else cfg.RefreshTokenExpiryHours }
        jwtKey := stringBytes cfg.SigningKey } := by
  unfold NewService
  rw [if_neg hkey]
  by_cases ha : cfg.AccessTokenExpiryHours = 0 <;> by_cases hr : cfg.RefreshTokenExpiryHours = 0 <;>
    simp [ha, hr]

/-- C8: `NewService` returns an error, and no service, exactly when `SigningKey` is the empty
string; for every non-empty `SigningKey` it returns a service and no error, whatever the two
expiry-hour fields are. -/
theorem NewService_error_iff_empty_key (cfg : Config) :
    ((∃ e, NewService cfg = .error e) ↔ cfg.SigningKey = "") ∧
    (cfg.SigningKey ≠ "" → ∃ s, NewService cfg = .ok s) := by
  refine ⟨⟨?_, ?_⟩, ?_⟩
  · rintro ⟨e, he⟩
    by_contra hkey
    rw [NewService_ok cfg hkey] at he
    cases he
  · intro hkey
    exact ⟨"auth config: SigningKey is required", by simp [NewService, hkey]⟩
  · intro hkey
    exact ⟨_, NewService_ok cfg hkey⟩

/-- C9: for a non-empty `SigningKey` the service built by `NewService` holds
`AccessTokenExpiryHours` equal to 1 when the input is 0 and to the input otherwise,
`RefreshTokenExpiryHours` equal to 72 when the input is 0 and to the input otherwise (each
default depends on its own field only), and as signing key the bytes of `SigningKey`. -/
theorem NewService_defaults (cfg : Config) (hkey : cfg.SigningKey ≠ "") :
    ∃ s, NewService cfg = .ok s ∧
      s.cfg.AccessTokenExpiryHours =
        (if cfg.AccessTokenExpiryHours = 0 then 1 else cfg.AccessTokenExpiryHours) ∧
      s.cfg.RefreshTokenExpiryHours =
        (if cfg.RefreshTokenExpiryHours = 0 then 72 else cfg.RefreshTokenExpiryHours) ∧
      s.cfg.SigningKey = cfg.SigningKey ∧
      s.jwtKey = stringBytes cfg.SigningKey :=
  ⟨_, NewService_ok cfg hkey, rfl, rfl, rfl, rfl⟩

/-- Witness of C9: with key `s3cr3t`, access hours 0 and refresh hours 24, the service holds 1
and 24 and the six bytes of the key. -/
theorem NewService_defaults_witness :
    ("s3cr3t" : String) ≠ "" ∧
    ∃ s, NewService ⟨"s3cr3t", 0, 24⟩ = .ok s ∧
      s.cfg.AccessTokenExpiryHours = 1 ∧ s.cfg.RefreshTokenExpiryHours = 24 ∧
      s.cfg.SigningKey = "s3cr3t" ∧ s.jwtKey = [115, 51, 99, 114, 51, 116] := by
  refine ⟨by decide, ?_⟩
  obtain ⟨s, hs, ha, hr, hk, hb⟩ := NewService_defaults ⟨"s3cr3t", 0, 24⟩ (by decide)
  refine ⟨s, hs, ?_, ?_, hk, ?_⟩
  · simpa using ha
  · simpa using hr
  · rw [hb]; decide

/-! ## The claim sets of `CreateTokens` -/

theorem truncate_second (t : Time) : Time.Truncate t Second = t - t % 1000000000 := by
  simp [Time.Truncate, Second]

theorem hour_mul_of_range (h : Int) (h0 : 1 ≤ h) (h1 : h ≤ 2562047) :
    Duration.mul Hour (Duration.ofInt h) = 3600000000000 * h := by
  have e1 : wrapInt64 h = h := by unfold wrapInt64; omega
  have e2 : wrapInt64 (3600000000000 * h) = 3600000000000 * h := by unfold wrapInt64; omega
  rw [Duration.mul, Duration.ofInt, e1, Hour, e2]

/-- C6, counterexample: with `AccessTokenExpiryHours = -1` the access claim set has
`expiresAt` one hour before `issuedAt`, and with `AccessTokenExpiryHours = 2562048` the
product `time.Hour * hours` overflows and `expiresAt` is again before `issuedAt`. -/
theorem expiry_after_issue_counterexample :
    NewService ⟨"k", -1, 72⟩ = .ok ⟨⟨"k", -1, 72⟩, [107]⟩ ∧
    (accessClaims ⟨⟨"k", -1, 72⟩, [107]⟩ 0 0 7 "user").ExpiresAt = some (-3600000000000) ∧
    (accessClaims ⟨⟨"k", -1, 72⟩, [107]⟩ 0 0 7 "user").IssuedAt = some 0 ∧
    NewService ⟨"k", 2562048, 72⟩ = .ok ⟨⟨"k", 2562048, 72⟩, [107]⟩ ∧
    (accessClaims ⟨⟨"k", 2562048, 72⟩, [107]⟩ 0 0 7 "user").ExpiresAt
      = some (-9223371274000000000) ∧
    (accessClaims ⟨⟨"k", 2562048, 72⟩, [107]⟩ 0 0 7 "user").IssuedAt = some 0 := by
  refine ⟨rfl, by decide, by decide, rfl, by decide, by decide⟩

theorem NewService_hours (cfg : Config) (s : jwtService) (hs : NewService cfg = .ok s) :
    s.cfg.AccessTokenExpiryHours =
      (if cfg.AccessTokenExpiryHours = 0 then 1 else cfg.AccessTokenExpiryHours) ∧
    s.cfg.RefreshTokenExpiryHours =
      (if cfg.RefreshTokenExpiryHours = 0 then 72 else cfg.RefreshTokenExpiryHours) ∧
    s.jwtKey = stringBytes cfg.SigningKey := by
  have hkey : cfg.SigningKey ≠ "" := by
    intro h
    simp [NewService, h] at hs
  rw [NewService_ok cfg hkey] at hs
  cases hs
  exact ⟨rfl, rfl, rfl⟩

theorem numericDate_lt (t u w : Int) (hw : 1 ≤ w) (hu : u - t ≤ 3600000000000 - 1000000000) :
    NewNumericDate u < NewNumericDate (Time.Add t (3600000000000 * w)) := by
  rw [NewNumericDate, NewNumericDate, truncate_second, truncate_second, Time.Add]
  show @LT.lt Int _ _ _
  omega

theorem numericDate_now_lt (t now w : Int) (hw : 1 ≤ w)
    (hnow : now - t ≤ 3600000000000 - 1000000000) :
    now < NewNumericDate (Time.Add t (3600000000000 * w)) := by
  rw [NewNumericDate, truncate_second, Time.Add]
  show @LT.lt Int _ _ _
  omega

/-- C6, amended: when both expiry-hour fields of the `Config` are between 0 and 2562047 (so
that the effective windows are positive and `time.Hour * hours` fits 64 bits) and, for each
token, the clock reading behind `issuedAt` is at most 59 min 59 s later than the one behind
`expiresAt`, both claim sets built by `CreateTokens` have `expiresAt > issuedAt`. -/
theorem expiry_after_issue (cfg : Config) (s : jwtService) (t1 t2 t3 t4 : Time)
    (userID : Int) (role : String)
    (hs : NewService cfg = .ok s)
    (ha0 : 0 ≤ cfg.AccessTokenExpiryHours) (ha1 : cfg.AccessTokenExpiryHours ≤ 2562047)
    (hr0 : 0 ≤ cfg.RefreshTokenExpiryHours) (hr1 : cfg.RefreshTokenExpiryHours ≤ 2562047)
    (h12 : t2 - t1 ≤ Hour - Second) (h34 : t4 - t3 ≤ Hour - Second) :
    (∃ exp iat, (accessClaims s t1 t2 userID role).ExpiresAt = some exp ∧
      (accessClaims s t1 t2 userID role).IssuedAt = some iat ∧ iat < exp) ∧
    (∃ exp iat, (refreshClaims s t3 t4 userID role).ExpiresAt = some exp ∧
      (refreshClaims s t3 t4 userID role).IssuedAt = some iat ∧ iat < exp) := by
  obtain ⟨hA, hR, _⟩ := NewService_hours cfg s hs
  have hA1 : 1 ≤ s.cfg.AccessTokenExpiryHours ∧ s.cfg.AccessTokenExpiryHours ≤ 2562047 := by
    rw [hA]; split <;> omega
  have hR1 : 1 ≤ s.cfg.RefreshTokenExpiryHours ∧ s.cfg.RefreshTokenExpiryHours ≤ 2562047 := by
    rw [hR]; split <;> omega
  simp only [Hour, Second] at h12 h34
  refine ⟨⟨_, _, rfl, rfl, ?_⟩, ⟨_, _, rfl, rfl, ?_⟩⟩
  · rw [hour_mul_of_range _ hA1.1 hA1.2]
    exact numericDate_lt t1 t2 _ hA1.1 h12
  · rw [hour_mul_of_range _ hR1.1 hR1.2]
    exact numericDate_lt t3 t4 _ hR1.1 h34

/-- Witness of C6, amended: the default windows (both fields 0), the expiry readings at
0.9 s and the issued-at readings at 1.2 s after the epoch. -/
theorem expiry_after_issue_witness :
    (∃ exp iat, (accessClaims ⟨⟨"k", 1, 72⟩, [107]⟩ 900000000 1200000000 7 "user").ExpiresAt
        = some exp ∧
      (accessClaims ⟨⟨"k", 1, 72⟩, [107]⟩ 900000000 1200000000 7 "user").IssuedAt = some iat ∧
      iat < exp) ∧
    (∃ exp iat, (refreshClaims ⟨⟨"k", 1, 72⟩, [107]⟩ 900000000 1200000000 7 "user").ExpiresAt
        = some exp ∧
      (refreshClaims ⟨⟨"k", 1, 72⟩, [107]⟩ 900000000 1200000000 7 "user").IssuedAt = some iat ∧
      iat < exp) :=
  expiry_after_issue ⟨"k", 0, 0⟩ ⟨⟨"k", 1, 72⟩, [107]⟩ 900000000 1200000000 900000000
    1200000000 7 "user" rfl (by decide) (by decide) (by decide) (by decide) (by decide)
    (by decide)

/-- C7, counterexample: with `AccessTokenExpiryHours = 0`, the first clock reading at
0.999999999 s and the second at 1 s after the epoch, the access claim set has `exp` 3600 and
`iat` 1, that is `exp - iat = 3599` seconds. -/
theorem default_window_counterexample :
    NewService ⟨"k", 0, 0⟩ = .ok ⟨⟨"k", 1, 72⟩, [107]⟩ ∧
    (accessClaims ⟨⟨"k", 1, 72⟩, [107]⟩ 999999999 1000000000 7 "user").ExpiresAt
      = some 3600000000000 ∧
    (accessClaims ⟨⟨"k", 1, 72⟩, [107]⟩ 999999999 1000000000 7 "user").IssuedAt
      = some 1000000000 ∧
    Time.Unix 3600000000000 - Time.Unix 1000000000 = 3599 := by
  refine ⟨rfl, by decide, by decide, by decide⟩

/-- C7, amended: for a service built with `AccessTokenExpiryHours = 0`, the access claim set
has `exp - iat = 3600 - (Unix t2 - Unix t1)` seconds, where `t1` is the clock reading behind
`exp` and `t2` the one behind `iat`; it is exactly 3600 seconds when both readings fall in
the same second. -/
theorem default_window (cfg : Config) (s : jwtService) (t1 t2 : Time) (userID : Int)
    (role : String) (hs : NewService cfg = .ok s) (h0 : cfg.AccessTokenExpiryHours = 0) :
    ∃ exp iat, (accessClaims s t1 t2 userID role).ExpiresAt = some exp ∧
      (accessClaims s t1 t2 userID role).IssuedAt = some iat ∧
      Time.Unix exp - Time.Unix iat = 3600 - (Time.Unix t2 - Time.Unix t1) ∧
      (Time.Unix t1 = Time.Unix t2 → Time.Unix exp - Time.Unix iat = 3600) := by
  obtain ⟨hA, _, _⟩ := NewService_hours cfg s hs
  rw [h0, if_pos rfl] at hA
  refine ⟨_, _, rfl, rfl, ?_⟩
  rw [hA, hour_mul_of_range 1 (by decide) (by decide)]
  simp only [NewNumericDate, truncate_second, Time.Add, Time.Unix]
  omega

/-- Witness of C7, amended: both readings in the second that starts 1 s after the epoch. -/
theorem default_window_witness :
    ∃ exp iat,
      (accessClaims ⟨⟨"k", 1, 72⟩, [107]⟩ 1000000000 1999999999 7 "user").ExpiresAt
        = some exp ∧
      (accessClaims ⟨⟨"k", 1, 72⟩, [107]⟩ 1000000000 1999999999 7 "user").IssuedAt
        = some iat ∧
      Time.Unix exp - Time.Unix iat = 3600 - (Time.Unix 1999999999 - Time.Unix 1000000000) ∧
      (Time.Unix 1000000000 = Time.Unix 1999999999 → Time.Unix exp - Time.Unix iat = 3600) :=
  default_window ⟨"k", 0, 0⟩ ⟨⟨"k", 1, 72⟩, [107]⟩ 1000000000 1999999999 7 "user" rfl rfl

/-! ## Identity propagation -/

theorem Heap.Value_cons_of_lt (node : CtxNode) (h : Heap) (ctx : Context) (key : Key)
    (hctx : ctx < h.length) : Heap.Value (node :: h) ctx key = Heap.Value h ctx key := by
  have hne : ctx ≠ h.length := Nat.ne_of_lt hctx
  simp [Heap.Value, hne]

/-- C10: for every heap of context objects, every context `ctx` allocated in it (one that
already carries claims included) and every claims reference `c` (the `nil` pointer
included), `ClaimsFromContext` on the context returned by `NewContextWithClaims(ctx, c)`
returns `(c, true)`, and `ClaimsFromContext(ctx)` on the original context returns after the
attach what it returned before. -/
theorem claims_context_roundtrip (h : Heap) (ctx : Context) (c : ClaimsPtr)
    (hctx : ctx < h.length) :
    ClaimsFromContext (NewContextWithClaims h ctx c).1 (NewContextWithClaims h ctx c).2
      = (c, true) ∧
    ClaimsFromContext (NewContextWithClaims h ctx c).1 ctx = ClaimsFromContext h ctx := by
  constructor
  · simp [ClaimsFromContext, NewContextWithClaims, WithValue, Heap.Value]
  · simp only [ClaimsFromContext, NewContextWithClaims, WithValue]
    rw [Heap.Value_cons_of_lt _ h ctx claimsKey hctx]

/-- Witness of C10: a background context, on it a context that carries the claims at address
5, and a second attach, of the claims at address 9, to that context. -/
theorem claims_context_roundtrip_witness :
    (1 : Nat) < [CtxNode.valueCtx 0 claimsKey (.claims (some 5)), CtxNode.emptyCtx].length ∧
    ClaimsFromContext
      [.valueCtx 1 claimsKey (.claims (some 9)), .valueCtx 0 claimsKey (.claims (some 5)),
        .emptyCtx] 2 = (some 9, true) ∧
    ClaimsFromContext
      [.valueCtx 1 claimsKey (.claims (some 9)), .valueCtx 0 claimsKey (.claims (some 5)),
        .emptyCtx] 1 = (some 5, true) :=
  ⟨by decide,
    (claims_context_roundtrip [.valueCtx 0 claimsKey (.claims (some 5)), .emptyCtx] 1 (some 9)
      (by decide)).1,
    (claims_context_roundtrip [.valueCtx 0 claimsKey (.claims (some 5)), .emptyCtx] 1 (some 9)
      (by decide)).2.trans (by decide)⟩

/-! ## Tokens: what the parser makes of a signed string -/

theorem splitChars_of_not_mem (sep : Char) (l : List Char) (h : sep ∉ l) :
    splitChars sep l = [l] := by
  induction l with
  | nil => rfl
  | cons c cs ih =>
    have hc : c ≠ sep := fun e => h (by simp [e])
    have hcs : sep ∉ cs := fun e => h (by simp [e])
    simp [splitChars, hc, ih hcs]

theorem splitChars_append_sep (sep : Char) (l1 l2 : List Char) (h : sep ∉ l1) :
    splitChars sep (l1 ++ sep :: l2) = l1 :: splitChars sep l2 := by
  induction l1 with
  | nil => simp [splitChars]
  | cons c cs ih =>
    have hc : c ≠ sep := fun e => h (by simp [e])
    have hcs : sep ∉ cs := fun e => h (by simp [e])
    simp [splitChars, hc, ih hcs]

theorem Split_three (a b c : String) (ha : '.' ∉ a.data) (hb : '.' ∉ b.data)
    (hc : '.' ∉ c.data) : Split (a ++ "." ++ b ++ "." ++ c) '.' = [a, b, c] := by
  have e : (a ++ "." ++ b ++ "." ++ c).data = a.data ++ '.' :: (b.data ++ '.' :: c.data) := by
    simp [String.data_append]
  rw [Split, e, splitChars_append_sep _ _ _ ha, splitChars_append_sep _ _ _ hb,
    splitChars_of_not_mem _ _ hc]
  rfl

theorem SigningString_ok (lib : Lib) (t : Token) (text : String)
    (h : t.SigningString lib = .ok text) :
    ∃ hb cb, lib.marshalHeader t.Header = .ok hb ∧ lib.marshalClaims t.Claims = .ok cb ∧
      text = lib.EncodeSegment hb ++ "." ++ lib.EncodeSegment cb := by
  unfold Token.SigningString at h
  cases hh : lib.marshalHeader t.Header with
  | error e => simp [hh] at h
  | ok hb =>
    cases hc : lib.marshalClaims t.Claims with
    | error e => simp [hh, hc] at h
    | ok cb =>
      simp only [hh, hc, Except.ok.injEq] at h
      exact ⟨hb, cb, rfl, rfl, h.symm⟩

theorem SignedString_ok (lib : Lib) (claims : Claims) (key : Bytes) (tok : String)
    (h : (NewWithClaims SigningMethodHS256 claims).SignedString lib key = .ok tok) :
    ∃ text, (NewWithClaims SigningMethodHS256 claims).SigningString lib = .ok text ∧
      lib.hashAvailable .SHA256 = true ∧
      tok = text ++ "." ++ lib.EncodeSegment (hmacSum lib .SHA256 key (stringBytes text)) := by
  unfold Token.SignedString at h
  cases hs : (NewWithClaims SigningMethodHS256 claims).SigningString lib with
  | error e => simp [hs] at h
  | ok text =>
    simp only [hs] at h
    cases ha : lib.hashAvailable .SHA256 with
    | false =>
      simp [NewWithClaims, SigningMethodHS256, SigningMethod.Sign, ha] at h
    | true =>
      simp only [NewWithClaims, SigningMethodHS256, SigningMethod.Sign, ha, if_true,
        Except.ok.injEq] at h
      exact ⟨text, rfl, rfl, h.symm⟩

/-- What `VerifyAccessToken` answers on a token that `SignedString` made with method HS256
from a representable claim set, whatever the key of the verifying service. -/
theorem VerifyAccessToken_signed (lib : Lib) (hl : lib.Lawful) (claims : Claims)
    (hrep : claims.Representable) (key : Bytes) (tok text : String)
    (ht : (NewWithClaims SigningMethodHS256 claims).SigningString lib = .ok text)
    (h : (NewWithClaims SigningMethodHS256 claims).SignedString lib key = .ok tok)
    (s : jwtService) (now : Time) :
    VerifyAccessToken lib s now tok =
      if hmacSum lib .SHA256 key (stringBytes text)
          = hmacSum lib .SHA256 s.jwtKey (stringBytes text) then
        match Validate now claims with
        | .ok _ => .ok claims
        | .error err =>
          .error { message := "failed to parse token: " ++
                      (GoError.newErrorMore "" .ErrTokenInvalidClaims err).Error
                   cause := some (.newErrorMore "" .ErrTokenInvalidClaims err) }
      else
        .error { message := "failed to parse token: " ++
                    (GoError.newErrorMore "" .ErrTokenSignatureInvalid
                      (.sentinel .ErrSignatureInvalid)).Error
                 cause := some (.newErrorMore "" .ErrTokenSignatureInvalid
                      (.sentinel .ErrSignatureInvalid)) } := by
  obtain ⟨text', ht', hav, htok⟩ := SignedString_ok lib claims key tok h
  rw [ht] at ht'
  cases ht'
  obtain ⟨hb, cb, hh, hc, htext⟩ := SigningString_ok lib _ text ht
  have hsplit : Split tok '.' = [lib.EncodeSegment hb, lib.EncodeSegment cb,
      lib.EncodeSegment (hmacSum lib .SHA256 key (stringBytes text))] := by
    rw [htok, htext]
    exact Split_three _ _ _ (hl.encode_no_period _) (hl.encode_no_period _)
      (hl.encode_no_period _)
  have hh' := hl.header_roundtrip _ _ hh
  have hc' := hl.claims_roundtrip _ _ hrep hc
  simp only [NewWithClaims] at hh' hc'
  have hget : GetSigningMethod SigningMethodHS256.Alg = some (.HMAC .SHA256) := by decide
  have hpu : ParseUnverified lib tok = .ok
      ({ Raw := tok, Method := .HMAC .SHA256,
         Header := { typ := some "JWT", alg := some SigningMethodHS256.Alg },
         Claims := claims, Signature := [], Valid := false },
        lib.EncodeSegment hb, lib.EncodeSegment cb,
        lib.EncodeSegment (hmacSum lib .SHA256 key (stringBytes text))) := by
    simp only [ParseUnverified, hsplit, hl.decode_encode, hh', hc', hget]
  simp only [VerifyAccessToken, ParseWithClaims, hpu, hl.decode_encode, keyFunc,
    SigningMethod.Verify, hav, if_true, ← htext]
  by_cases hmac : hmacSum lib .SHA256 key (stringBytes text)
      = hmacSum lib .SHA256 s.jwtKey (stringBytes text)
  · simp only [hmac, if_true]
    cases hv : Validate now claims with
    | error e => simp
    | ok u => simp
  · simp only [hmac, if_false]

/-! ## The instance `plainLib` is lawful -/

theorem plainDecode_plainEncode (b : Bytes) : plainDecode (plainEncode b).data = .ok b := by
  induction b with
  | nil => rfl
  | cons x xs ih =>
    have hx := byte_toNat_lt x
    have hv : (Char.ofNat (x.toNat + 256)).toNat = x.toNat + 256 := by
      have hval : (x.toNat + 256).isValidChar := by
        left; omega
      simp [Char.ofNat, hval, Char.ofNatAux, Char.toNat, Nat.toUInt32, UInt32.ofNat,
        UInt32.toNat]
    simp only [plainEncode, List.map_cons] at ih ⊢
    simp only [plainDecode, hv, ih]
    simp [byte_ofNat_toNat, hx]

theorem plainEncode_no_period (b : Bytes) : '.' ∉ (plainEncode b).data := by
  simp only [plainEncode, List.mem_map, not_exists, not_and]
  intro x _ hx
  have hlt := byte_toNat_lt x
  have hval : (x.toNat + 256).isValidChar := by
    left; omega
  have h1 : (Char.ofNat (x.toNat + 256)).toNat = ('.' : Char).toNat := by rw [hx]
  simp [Char.ofNat, hval, Char.ofNatAux, Char.toNat, Nat.toUInt32, UInt32.ofNat,
    UInt32.toNat] at h1

theorem plainLib_lawful : plainLib.Lawful where
  decode_encode := plainDecode_plainEncode
  encode_no_period := plainEncode_no_period
  header_roundtrip := by
    intro h b hb
    simp only [plainLib, Except.ok.injEq] at hb
    subst hb
    simp only [plainLib, decAll_enc]
    rfl
  claims_roundtrip := by
    intro c b _ hb
    simp only [plainLib, Except.ok.injEq] at hb
    subst hb
    simp only [plainLib, decAll_enc]
    rfl

theorem plainLib_SignedString (claims : Claims) (key : Bytes) :
    ∃ tok, (NewWithClaims SigningMethodHS256 claims).SignedString plainLib key = .ok tok := by
  simp [Token.SignedString, Token.SigningString, NewWithClaims, SigningMethodHS256,
    SigningMethod.Sign, plainLib]

theorem plainLib_CreateTokens (s : jwtService) (t1 t2 t3 t4 : Time) (userID : Int)
    (role : String) :
    ∃ acc ref, CreateTokens plainLib s t1 t2 t3 t4 userID role = .ok (acc, ref) := by
  obtain ⟨a, ha⟩ := plainLib_SignedString (accessClaims s t1 t2 userID role) s.jwtKey
  obtain ⟨r, hr⟩ := plainLib_SignedString (refreshClaims s t3 t4 userID role) s.jwtKey
  exact ⟨a, r, by simp [CreateTokens, ha, hr]⟩

/-! ## Issued access tokens -/

theorem CreateTokens_ok (lib : Lib) (s : jwtService) (t1 t2 t3 t4 : Time) (userID : Int)
    (role : String) (acc ref : String)
    (hc : CreateTokens lib s t1 t2 t3 t4 userID role = .ok (acc, ref)) :
    (NewWithClaims SigningMethodHS256 (accessClaims s t1 t2 userID role)).SignedString lib
      s.jwtKey = .ok acc := by
  unfold CreateTokens at hc
  cases ha : (NewWithClaims SigningMethodHS256 (accessClaims s t1 t2 userID role)).SignedString
      lib s.jwtKey with
  | error e => simp [ha] at hc
  | ok a =>
    cases hr : (NewWithClaims SigningMethodHS256
        (refreshClaims s t3 t4 userID role)).SignedString lib s.jwtKey with
    | error e => simp [ha, hr] at hc
    | ok r =>
      simp only [ha, hr, Except.ok.injEq, Prod.mk.injEq] at hc
      rw [hc.1]

theorem wrapInt64_range (x : Int) : IsInt64 (wrapInt64 x) := by
  unfold IsInt64 wrapInt64
  omega

theorem accessClaims_representable (s : jwtService) (t1 t2 : Time) (userID : Int)
    (role : String) (h1 : Time.InRange t1) (h2 : Time.InRange t2) (hu : IsInt64 userID) :
    (accessClaims s t1 t2 userID role).Representable := by
  refine ⟨hu, ?_⟩
  have hw := wrapInt64_range (Hour * Duration.ofInt s.cfg.AccessTokenExpiryHours)
  intro d hd
  simp only [accessClaims, NewNumericDate, truncate_second, Time.Add, Duration.mul,
    Option.some.injEq, false_or, reduceCtorEq] at hd
  unfold Time.InRange IsInt64 at h1 h2
  unfold IsInt64 at hw
  generalize wrapInt64 (Hour * Duration.ofInt s.cfg.AccessTokenExpiryHours) = w at hw hd
  rcases hd with hd | hd <;> subst hd <;>
    refine ⟨?_, ?_, ?_⟩ <;> (try show @Eq Int _ _) <;> (try show @LE.le Int _ _ _) <;> omega

theorem Validate_accessClaims (s : jwtService) (t1 t2 now : Time) (userID : Int)
    (role : String) :
    Validate now (accessClaims s t1 t2 userID role) =
      if now < NewNumericDate
          (Time.Add t1 (Duration.mul Hour (Duration.ofInt s.cfg.AccessTokenExpiryHours))) then
        .ok ()
      else .error (.joined [.ErrTokenExpired]) := by
  by_cases h : now < NewNumericDate
      (Time.Add t1 (Duration.mul Hour (Duration.ofInt s.cfg.AccessTokenExpiryHours)))
  · simp [Validate, accessClaims, Time.Before, h]
  · simp [Validate, accessClaims, Time.Before, h]

/-- The answer of a service `v` on the access token issued by a service `s`. -/
theorem VerifyAccessToken_issued (lib : Lib) (hl : lib.Lawful) (s v : jwtService)
    (t1 t2 t3 t4 : Time) (userID : Int) (role : String) (acc ref : String)
    (h1 : Time.InRange t1) (h2 : Time.InRange t2) (hu : IsInt64 userID)
    (hc : CreateTokens lib s t1 t2 t3 t4 userID role = .ok (acc, ref)) (now : Time) :
    ∃ text,
      (NewWithClaims SigningMethodHS256 (accessClaims s t1 t2 userID role)).SigningString lib
        = .ok text ∧
      VerifyAccessToken lib v now acc =
        if hmacSum lib .SHA256 s.jwtKey (stringBytes text)
            = hmacSum lib .SHA256 v.jwtKey (stringBytes text) then
          if now < NewNumericDate
              (Time.Add t1 (Duration.mul Hour (Duration.ofInt s.cfg.AccessTokenExpiryHours)))
          then .ok (accessClaims s t1 t2 userID role)
          else .error
            { message := "failed to parse token: token has invalid claims: token is expired"
              cause := some (.newErrorMore "" .ErrTokenInvalidClaims
                (.joined [.ErrTokenExpired])) }
        else .error
          { message :=
              "failed to parse token: token signature is invalid: signature is invalid"
            cause := some (.newErrorMore "" .ErrTokenSignatureInvalid
              (.sentinel .ErrSignatureInvalid)) } := by
  have hsig := CreateTokens_ok lib s t1 t2 t3 t4 userID role acc ref hc
  obtain ⟨text, ht, _, _⟩ := SignedString_ok lib _ _ _ hsig
  refine ⟨text, ht, ?_⟩
  rw [VerifyAccessToken_signed lib hl _ (accessClaims_representable s t1 t2 userID role h1 h2 hu)
    _ _ _ ht hsig v now, Validate_accessClaims]
  have e1 : (GoError.newErrorMore "" .ErrTokenInvalidClaims (.joined [.ErrTokenExpired])).Error
      = "token has invalid claims: token is expired" := by decide
  have e2 : (GoError.newErrorMore "" .ErrTokenSignatureInvalid
      (.sentinel .ErrSignatureInvalid)).Error
      = "token signature is invalid: signature is invalid" := by decide
  by_cases hm : hmacSum lib .SHA256 s.jwtKey (stringBytes text)
      = hmacSum lib .SHA256 v.jwtKey (stringBytes text)
  · by_cases hn : now < NewNumericDate
        (Time.Add t1 (Duration.mul Hour (Duration.ofInt s.cfg.AccessTokenExpiryHours)))
    · simp only [hm, hn, if_true]
    · simp only [hm, hn, if_true, if_false, e1]
      rfl
  · simp only [hm, if_false, e2]
    rfl

/-- C1, counterexample: `NewService` accepts `AccessTokenExpiryHours = -1`; the service
issues tokens, and with every lawful library the access token is rejected as expired at the
very clock reading of its issuance. The same holds for `AccessTokenExpiryHours = 2562048`,
where `time.Hour * hours` overflows. -/
theorem issued_token_accepted_counterexample :
    NewService ⟨"k", -1, 72⟩ = .ok ⟨⟨"k", -1, 72⟩, [107]⟩ ∧
    (∃ acc ref,
      CreateTokens plainLib ⟨⟨"k", -1, 72⟩, [107]⟩ 0 0 0 0 42 "admin" = .ok (acc, ref)) ∧
    (∀ lib : Lib, lib.Lawful → ∀ acc ref,
      CreateTokens lib ⟨⟨"k", -1, 72⟩, [107]⟩ 0 0 0 0 42 "admin" = .ok (acc, ref) →
      VerifyAccessToken lib ⟨⟨"k", -1, 72⟩, [107]⟩ 0 acc = .error
        { message := "failed to parse token: token has invalid claims: token is expired"
          cause := some (.newErrorMore "" .ErrTokenInvalidClaims
            (.joined [.ErrTokenExpired])) }) ∧
    NewService ⟨"k", 2562048, 72⟩ = .ok ⟨⟨"k", 2562048, 72⟩, [107]⟩ ∧
    (∀ lib : Lib, lib.Lawful → ∀ acc ref,
      CreateTokens lib ⟨⟨"k", 2562048, 72⟩, [107]⟩ 0 0 0 0 42 "admin" = .ok (acc, ref) →
      VerifyAccessToken lib ⟨⟨"k", 2562048, 72⟩, [107]⟩ 0 acc = .error
        { message := "failed to parse token: token has invalid claims: token is expired"
          cause := some (.newErrorMore "" .ErrTokenInvalidClaims
            (.joined [.ErrTokenExpired])) }) := by
  refine ⟨rfl, plainLib_CreateTokens _ 0 0 0 0 42 "admin", ?_, rfl, ?_⟩
  · intro lib hl acc ref hc
    obtain ⟨text, _, hv⟩ := VerifyAccessToken_issued lib hl _ ⟨⟨"k", -1, 72⟩, [107]⟩ 0 0 0 0
      42 "admin" acc ref (by decide) (by decide) (by decide) hc 0
    rw [hv, if_pos rfl, if_neg (by decide)]
  · intro lib hl acc ref hc
    obtain ⟨text, _, hv⟩ := VerifyAccessToken_issued lib hl _ ⟨⟨"k", 2562048, 72⟩, [107]⟩ 0 0
      0 0 42 "admin" acc ref (by decide) (by decide) (by decide) hc 0
    rw [hv, if_pos rfl, if_neg (by decide)]

/-- C1, amended: for a lawful library, a service built by `NewService` from a `Config` whose
`AccessTokenExpiryHours` is between 0 and 2562047, clock readings within the `int64`
nanosecond range, every `int64` userID and every role: if `CreateTokens(userID, role)`
succeeds, then `VerifyAccessToken` on the access token, at the issuance clock reading and at
any reading up to 59 min 59 s after it, succeeds and returns claims whose `UserID` is
`userID` and whose `Role` is `role`. -/
theorem issued_token_accepted (lib : Lib) (hl : lib.Lawful) (cfg : Config) (s : jwtService)
    (t1 t2 t3 t4 now : Time) (userID : Int) (role : String) (acc ref : String)
    (hs : NewService cfg = .ok s)
    (ha0 : 0 ≤ cfg.AccessTokenExpiryHours) (ha1 : cfg.AccessTokenExpiryHours ≤ 2562047)
    (h1 : Time.InRange t1) (h2 : Time.InRange t2) (hu : IsInt64 userID)
    (hnow : now - t1 ≤ Hour - Second)
    (hc : CreateTokens lib s t1 t2 t3 t4 userID role = .ok (acc, ref)) :
    ∃ c, VerifyAccessToken lib s now acc = .ok c ∧ c.UserID = userID ∧ c.Role = role := by
  obtain ⟨text, _, hv⟩ := VerifyAccessToken_issued lib hl s s t1 t2 t3 t4 userID role acc ref
    h1 h2 hu hc now
  obtain ⟨hA, _, _⟩ := NewService_hours cfg s hs
  have hA1 : 1 ≤ s.cfg.AccessTokenExpiryHours ∧ s.cfg.AccessTokenExpiryHours ≤ 2562047 := by
    rw [hA]; split <;> omega
  simp only [Hour, Second] at hnow
  have hlt : now < NewNumericDate
      (Time.Add t1 (Duration.mul Hour (Duration.ofInt s.cfg.AccessTokenExpiryHours))) := by
    rw [hour_mul_of_range _ hA1.1 hA1.2]
    exact numericDate_now_lt t1 now _ hA1.1 hnow
  rw [if_pos rfl, if_pos hlt] at hv
  exact ⟨_, hv, rfl, rfl⟩

/-- Witness of C1, amended: the library `plainLib`, key `s3cr3t`, the default window, user
42 with role `admin`, issuance and verification at 1700000000 s after the epoch. -/
theorem issued_token_accepted_witness :
    ∃ acc ref,
      CreateTokens plainLib ⟨⟨"s3cr3t", 1, 72⟩, [115, 51, 99, 114, 51, 116]⟩
        1700000000000000000 1700000000000000000 1700000000000000000 1700000000000000000
        42 "admin" = .ok (acc, ref) ∧
      ∃ c, VerifyAccessToken plainLib ⟨⟨"s3cr3t", 1, 72⟩, [115, 51, 99, 114, 51, 116]⟩
        1700000000000000000 acc = .ok c ∧ c.UserID = 42 ∧ c.Role = "admin" := by
  obtain ⟨acc, ref, hc⟩ := plainLib_CreateTokens
    ⟨⟨"s3cr3t", 1, 72⟩, [115, 51, 99, 114, 51, 116]⟩
    1700000000000000000 1700000000000000000 1700000000000000000 1700000000000000000 42 "admin"
  exact ⟨acc, ref, hc,
    issued_token_accepted plainLib plainLib_lawful ⟨"s3cr3t", 0, 0⟩ _ _ _ _ _
      1700000000000000000 42 "admin" acc ref rfl (by decide) (by decide) (by decide)
      (by decide) (by decide) (by decide) hc⟩

theorem hour_mul_le (h : Int) (h0 : -2562047 ≤ h) :
    Duration.mul Hour (Duration.ofInt h) ≤ 3600000000000 * h := by
  have e1 := wrapInt64_range h
  have e2 := wrapInt64_range (3600000000000 * wrapInt64 h)
  unfold IsInt64 at e1 e2
  rw [Duration.mul, Duration.ofInt, Hour]
  show @LE.le Int _ _ _
  by_cases hh : h ≤ 2562047
  · have e3 : wrapInt64 h = h := by unfold wrapInt64; omega
    have e4 : wrapInt64 (3600000000000 * h) = 3600000000000 * h := by unfold wrapInt64; omega
    rw [e3, e4]
  · omega

/-- C2, counterexample: the clock steps back between the two readings of the access token
(1 s, then 0 s after the epoch) with the default window of one hour, so `issuedAt` is 0 and
`expiresAt` is 3601 s; with every lawful library the token is accepted at `now = 3600 s`,
which is `issuedAt` plus the window. And with `AccessTokenExpiryHours = -2562048` the product
`time.Hour * hours` overflows to a positive duration: `expiresAt` is 9223371273 s while
`issuedAt` plus the configured window lies before the epoch, and the token is accepted at
the epoch. -/
theorem expired_token_rejected_counterexample :
    NewService ⟨"k", 0, 0⟩ = .ok ⟨⟨"k", 1, 72⟩, [107]⟩ ∧
    (accessClaims ⟨⟨"k", 1, 72⟩, [107]⟩ 1000000000 0 42 "admin").IssuedAt = some 0 ∧
    (accessClaims ⟨⟨"k", 1, 72⟩, [107]⟩ 1000000000 0 42 "admin").ExpiresAt
      = some 3601000000000 ∧
    Time.Add 0 (Hour * 1) ≤ 3600000000000 ∧
    (∃ acc ref, CreateTokens plainLib ⟨⟨"k", 1, 72⟩, [107]⟩ 1000000000 0 0 0 42 "admin"
      = .ok (acc, ref)) ∧
    (∀ lib : Lib, lib.Lawful → ∀ acc ref,
      CreateTokens lib ⟨⟨"k", 1, 72⟩, [107]⟩ 1000000000 0 0 0 42 "admin" = .ok (acc, ref) →
      VerifyAccessToken lib ⟨⟨"k", 1, 72⟩, [107]⟩ 3600000000000 acc
        = .ok (accessClaims ⟨⟨"k", 1, 72⟩, [107]⟩ 1000000000 0 42 "admin")) ∧
    NewService ⟨"k", -2562048, 72⟩ = .ok ⟨⟨"k", -2562048, 72⟩, [107]⟩ ∧
    (accessClaims ⟨⟨"k", -2562048, 72⟩, [107]⟩ 0 0 42 "admin").IssuedAt = some 0 ∧
    (accessClaims ⟨⟨"k", -2562048, 72⟩, [107]⟩ 0 0 42 "admin").ExpiresAt
      = some 9223371273000000000 ∧
    Time.Add 0 (Hour * (-2562048)) ≤ 0 ∧
    (∀ lib : Lib, lib.Lawful → ∀ acc ref,
      CreateTokens lib ⟨⟨"k", -2562048, 72⟩, [107]⟩ 0 0 0 0 42 "admin" = .ok (acc, ref) →
      VerifyAccessToken lib ⟨⟨"k", -2562048, 72⟩, [107]⟩ 0 acc
        = .ok (accessClaims ⟨⟨"k", -2562048, 72⟩, [107]⟩ 0 0 42 "admin")) := by
  refine ⟨rfl, by decide, by decide, by decide,
    plainLib_CreateTokens _ 1000000000 0 0 0 42 "admin", ?_, rfl, by decide, by decide,
    by decide, ?_⟩
  · intro lib hl acc ref hc
    obtain ⟨text, _, hv⟩ := VerifyAccessToken_issued lib hl _ ⟨⟨"k", 1, 72⟩, [107]⟩
      1000000000 0 0 0 42 "admin" acc ref (by decide) (by decide) (by decide) hc
      3600000000000
    rw [hv, if_pos rfl, if_pos (by decide)]
  · intro lib hl acc ref hc
    obtain ⟨text, _, hv⟩ := VerifyAccessToken_issued lib hl _ ⟨⟨"k", -2562048, 72⟩, [107]⟩
      0 0 0 0 42 "admin" acc ref (by decide) (by decide) (by decide) hc 0
    rw [hv, if_pos rfl, if_pos (by decide)]

/-- C2, amended: for a lawful library and an access token issued by `CreateTokens` (clock
readings within the `int64` nanosecond range, `int64` userID), with `exp` the `expiresAt`
written into the token (the first clock reading plus the 64-bit product `time.Hour * hours`,
truncated to the second): the issuing service accepts the token exactly at the verification
times `now < exp`; at every `now ≥ exp` it returns an error and no claims, hence also at
every `now` at or after the first issuance reading plus that product. When the clock did not
go back between the first two readings and `AccessTokenExpiryHours ≥ -2562047`, `exp` is at
most `issuedAt` plus the configured window, and the token is rejected at every `now` at or
after `issuedAt` plus the window. -/
theorem expired_token_rejected (lib : Lib) (hl : lib.Lawful) (s : jwtService)
    (t1 t2 t3 t4 : Time) (userID : Int) (role : String) (acc ref : String)
    (h1 : Time.InRange t1) (h2 : Time.InRange t2) (hu : IsInt64 userID)
    (hc : CreateTokens lib s t1 t2 t3 t4 userID role = .ok (acc, ref)) (now : Time) :
    ∃ exp iat, (accessClaims s t1 t2 userID role).ExpiresAt = some exp ∧
      (accessClaims s t1 t2 userID role).IssuedAt = some iat ∧
      ((∃ c, VerifyAccessToken lib s now acc = .ok c) ↔ now < exp) ∧
      (exp ≤ now → ∃ e, VerifyAccessToken lib s now acc = .error e) ∧
      (Time.Add t1 (Duration.mul Hour (Duration.ofInt s.cfg.AccessTokenExpiryHours)) ≤ now →
        ∃ e, VerifyAccessToken lib s now acc = .error e) ∧
      (-2562047 ≤ s.cfg.AccessTokenExpiryHours → t1 ≤ t2 →
        (exp ≤ Time.Add iat (Hour * s.cfg.AccessTokenExpiryHours) ∧
         (Time.Add iat (Hour * s.cfg.AccessTokenExpiryHours) ≤ now →
          ∃ e, VerifyAccessToken lib s now acc = .error e))) := by
  obtain ⟨text, _, hv⟩ := VerifyAccessToken_issued lib hl s s t1 t2 t3 t4 userID role acc ref
    h1 h2 hu hc now
  rw [if_pos rfl] at hv
  have hrej : NewNumericDate (Time.Add t1 (Duration.mul Hour
      (Duration.ofInt s.cfg.AccessTokenExpiryHours))) ≤ now →
      ∃ e, VerifyAccessToken lib s now acc = .error e := by
    intro hle
    rw [if_neg (not_lt.mpr hle)] at hv
    exact ⟨_, hv⟩
  refine ⟨_, _, rfl, rfl, ⟨?_, ?_⟩, hrej, ?_, ?_⟩
  · rintro ⟨c, hok⟩
    by_contra hn
    rw [if_neg hn, hok] at hv
    cases hv
  · intro hlt
    rw [if_pos hlt] at hv
    exact ⟨_, hv⟩
  · intro hle
    apply hrej
    rw [NewNumericDate, truncate_second]
    simp only [Time.Add] at hle ⊢
    show @LE.le Int _ _ _
    have hle' : @LE.le Int _ _ now := hle
    omega
  · intro hw h12
    have hmul : @LE.le Int _ (Duration.mul Hour (Duration.ofInt s.cfg.AccessTokenExpiryHours))
        (3600000000000 * s.cfg.AccessTokenExpiryHours) := hour_mul_le _ hw
    have h12' : @LE.le Int _ t1 t2 := h12
    have hexp : NewNumericDate (Time.Add t1 (Duration.mul Hour
        (Duration.ofInt s.cfg.AccessTokenExpiryHours)))
        ≤ Time.Add (NewNumericDate t2) (Hour * s.cfg.AccessTokenExpiryHours) := by
      generalize Duration.mul Hour (Duration.ofInt s.cfg.AccessTokenExpiryHours) = w at hmul
      simp only [NewNumericDate, truncate_second, Time.Add, Hour]
      show @LE.le Int _ _ _
      omega
    exact ⟨hexp, fun hle => hrej (le_trans hexp hle)⟩

/-- Witness of C2, amended: the library `plainLib`, key `s3cr3t`, a window of one hour,
issuance at the epoch and verification exactly 3600 s later. -/
theorem expired_token_rejected_witness :
    ∃ acc ref,
      CreateTokens plainLib ⟨⟨"s3cr3t", 1, 72⟩, [115, 51, 99, 114, 51, 116]⟩ 0 0 0 0 42 "admin"
        = .ok (acc, ref) ∧
      (accessClaims ⟨⟨"s3cr3t", 1, 72⟩, [115, 51, 99, 114, 51, 116]⟩ 0 0 42 "admin").ExpiresAt
        = some 3600000000000 ∧
      ∃ e, VerifyAccessToken plainLib ⟨⟨"s3cr3t", 1, 72⟩, [115, 51, 99, 114, 51, 116]⟩
        3600000000000 acc = .error e := by
  obtain ⟨acc, ref, hc⟩ := plainLib_CreateTokens
    ⟨⟨"s3cr3t", 1, 72⟩, [115, 51, 99, 114, 51, 116]⟩ 0 0 0 0 42 "admin"
  obtain ⟨exp, iat, hexp, _, _, hrej, _, _⟩ := expired_token_rejected plainLib plainLib_lawful
    ⟨⟨"s3cr3t", 1, 72⟩, [115, 51, 99, 114, 51, 116]⟩ 0 0 0 0 42 "admin" acc ref
    (by decide) (by decide) (by decide) hc 3600000000000
  have he : exp = 3600000000000 := by
    have h0 : (accessClaims ⟨⟨"s3cr3t", 1, 72⟩, [115, 51, 99, 114, 51, 116]⟩ 0 0 42
        "admin").ExpiresAt = some 3600000000000 := by decide
    rw [h0] at hexp
    exact (Option.some.inj hexp).symm
  exact ⟨acc, ref, hc, by decide, hrej (by rw [he])⟩

/-! ## Algorithm substitution -/

theorem lookup_mem {α β : Type} [BEq α] [LawfulBEq α] (a : α) (b : β) (l : List (α × β))
    (h : l.lookup a = some b) : (a, b) ∈ l := by
  induction l with
  | nil => simp at h
  | cons p ps ih =>
    obtain ⟨k, v⟩ := p
    by_cases hk : a == k
    · simp only [List.lookup, hk, Option.some.injEq] at h
      have hak : a = k := eq_of_beq hk
      subst hak
      subst h
      exact List.mem_cons_self _ _
    · have hk' : (a == k) = false := by simpa using hk
      simp only [List.lookup, hk'] at h
      exact List.mem_cons_of_mem _ (ih h)

theorem GetSigningMethod_isHMAC (alg : String) (m : SigningMethod)
    (h : GetSigningMethod alg = some m) (hm : m.isHMAC = true) :
    alg = "HS256" ∨ alg = "HS384" ∨ alg = "HS512" := by
  have hmem := lookup_mem alg m signingMethods h
  simp only [signingMethods, List.mem_cons, Prod.mk.injEq, List.mem_singleton,
    List.not_mem_nil, or_false] at hmem
  rcases hmem with h | h | h | h | h | h | h | h | h | h | h | h | h | h
  · exact Or.inl h.1
  · exact Or.inr (Or.inl h.1)
  · exact Or.inr (Or.inr h.1)
  all_goals (rw [h.2] at hm; exact absurd hm (by decide))

theorem keyFunc_ok (s : jwtService) (token : Token) (key : Bytes)
    (h : keyFunc s token = .ok key) : token.Method.isHMAC = true ∧ key = s.jwtKey := by
  unfold keyFunc at h
  cases hm : token.Method <;> simp [hm] at h
  exact ⟨rfl, h.symm⟩

/-- C3: a token string of three segments whose header decodes and declares, under `alg`, a
name other than `HS256`, `HS384` and `HS512` makes `VerifyAccessToken` return an error and no
claims, whatever the library, the payload segment and the signature segment are; and the key
function hands out the signing key only for a token whose method is HMAC. -/
theorem non_hmac_alg_rejected (lib : Lib) (s : jwtService) (now : Time)
    (tokenString p0 p1 p2 : String) (headerBytes : Bytes) (header : Header) (alg : String)
    (hsplit : Split tokenString '.' = [p0, p1, p2])
    (hdec : lib.DecodeSegment p0 = .ok headerBytes)
    (hjson : lib.unmarshalHeader headerBytes = .ok header)
    (halg : header.alg = some alg)
    (hne : alg ≠ "HS256" ∧ alg ≠ "HS384" ∧ alg ≠ "HS512") :
    (∃ e, VerifyAccessToken lib s now tokenString = .error e) ∧
    (∀ token key, keyFunc s token = .ok key →
      token.Method.isHMAC = true ∧ key = s.jwtKey) := by
  refine ⟨?_, keyFunc_ok s⟩
  simp only [VerifyAccessToken, ParseWithClaims, ParseUnverified, hsplit, hdec, hjson, halg]
  cases h1 : lib.DecodeSegment p1 with
  | error e => exact ⟨_, rfl⟩
  | ok claimBytes =>
    dsimp only
    cases h2 : lib.unmarshalClaims claimBytes with
    | error e => exact ⟨_, rfl⟩
    | ok claims =>
      dsimp only
      cases h3 : GetSigningMethod alg with
      | none => exact ⟨_, rfl⟩
      | some m =>
        dsimp only
        have hm : m.isHMAC = false := by
          cases hb : m.isHMAC with
          | false => rfl
          | true =>
            rcases GetSigningMethod_isHMAC alg m h3 hb with h | h | h
            · exact absurd h hne.1
            · exact absurd h hne.2.1
            · exact absurd h hne.2.2
        cases h4 : lib.DecodeSegment p2 with
        | error e => exact ⟨_, rfl⟩
        | ok sig =>
          dsimp only
          cases m with
          | HMAC hash => simp [SigningMethod.isHMAC] at hm
          | RSA hash => exact ⟨_, rfl⟩
          | RSAPSS hash => exact ⟨_, rfl⟩
          | ECDSA hash => exact ⟨_, rfl⟩
          | Ed25519 => exact ⟨_, rfl⟩
          | none => exact ⟨_, rfl⟩

/-- Witness of C3: with the library `plainLib`, the token whose header declares `RS256`,
whose payload is the claim set of user 42 valid until one hour after the epoch, and whose
signature segment is the HS256 MAC of the two under the key of the service. -/
theorem non_hmac_alg_rejected_witness :
    ∃ e, VerifyAccessToken plainLib ⟨⟨"s3cr3t", 1, 72⟩, [115, 51, 99, 114, 51, 116]⟩ 0
      (plainEncode (Serial.enc (Header.toProd ⟨some "JWT", some "RS256"⟩)) ++ "." ++
        plainEncode (Serial.enc (Claims.toProd
          (accessClaims ⟨⟨"s3cr3t", 1, 72⟩, [115, 51, 99, 114, 51, 116]⟩ 0 0 42 "admin")))
        ++ "." ++
        plainEncode (hmacSum plainLib .SHA256 [115, 51, 99, 114, 51, 116]
          (stringBytes (plainEncode (Serial.enc (Header.toProd ⟨some "JWT", some "RS256"⟩))
            ++ "." ++ plainEncode (Serial.enc (Claims.toProd
              (accessClaims ⟨⟨"s3cr3t", 1, 72⟩, [115, 51, 99, 114, 51, 116]⟩ 0 0 42
                "admin"))))))) = .error e :=
  (non_hmac_alg_rejected plainLib ⟨⟨"s3cr3t", 1, 72⟩, [115, 51, 99, 114, 51, 116]⟩ 0 _ _ _ _
    (Serial.enc (Header.toProd ⟨some "JWT", some "RS256"⟩)) ⟨some "JWT", some "RS256"⟩ "RS256"
    (Split_three _ _ _ (plainEncode_no_period _) (plainEncode_no_period _)
      (plainEncode_no_period _))
    (plainDecode_plainEncode _) (plainLib_lawful.header_roundtrip _ _ rfl) rfl
    (by decide)).1

/-! ## Verification under another key -/

theorem take_append_zero (key : Bytes) (n : Nat) :
    ((key ++ [0]) ++ List.replicate n 0).take n = (key ++ List.replicate n 0).take n := by
  have e : (key ++ [0]) ++ List.replicate n (0 : UInt8)
      = (key ++ List.replicate n 0) ++ [0] := by
    rw [List.append_assoc, List.append_assoc]
    congr 1
    show 0 :: List.replicate n 0 = _
    rw [← List.replicate_succ, List.replicate_succ']
  rw [e, List.take_append_of_le_length]
  simp

/-- A key shorter than the block and the same key followed by a zero byte give the same
MAC, under every hash function. -/
theorem hmacSum_key_zero (lib : Lib) (h : HashAlg) (key msg : Bytes)
    (hk : key.length < h.BlockSize) :
    hmacSum lib h (key ++ [0]) msg = hmacSum lib h key msg := by
  have h1 : ¬ (key ++ [0]).length > h.BlockSize := by
    simp only [List.length_append, List.length_singleton]
    omega
  have h2 : ¬ key.length > h.BlockSize := by omega
  simp only [hmacSum, if_neg h1, if_neg h2, take_append_zero key _]

/-- C4, counterexample: the keys `a` and `a` followed by a zero byte are distinct and
non-empty, `NewService` accepts both, the service of the first issues tokens, and with every
lawful library the service of the second accepts the access token of the first at its
issuance. -/
theorem other_key_rejected_counterexample :
    ("a" : String) ≠ "a\x00" ∧ ("a" : String) ≠ "" ∧ ("a\x00" : String) ≠ "" ∧
    NewService ⟨"a", 1, 72⟩ = .ok ⟨⟨"a", 1, 72⟩, [97]⟩ ∧
    NewService ⟨"a\x00", 1, 72⟩ = .ok ⟨⟨"a\x00", 1, 72⟩, [97, 0]⟩ ∧
    (∃ acc ref, CreateTokens plainLib ⟨⟨"a", 1, 72⟩, [97]⟩ 0 0 0 0 42 "admin"
      = .ok (acc, ref)) ∧
    (∀ lib : Lib, lib.Lawful → ∀ acc ref,
      CreateTokens lib ⟨⟨"a", 1, 72⟩, [97]⟩ 0 0 0 0 42 "admin" = .ok (acc, ref) →
      VerifyAccessToken lib ⟨⟨"a\x00", 1, 72⟩, [97, 0]⟩ 0 acc
        = .ok (accessClaims ⟨⟨"a", 1, 72⟩, [97]⟩ 0 0 42 "admin")) := by
  refine ⟨by decide, by decide, by decide, rfl, rfl,
    plainLib_CreateTokens _ 0 0 0 0 42 "admin", ?_⟩
  intro lib hl acc ref hc
  obtain ⟨text, _, hv⟩ := VerifyAccessToken_issued lib hl ⟨⟨"a", 1, 72⟩, [97]⟩
    ⟨⟨"a\x00", 1, 72⟩, [97, 0]⟩ 0 0 0 0 42 "admin" acc ref (by decide) (by decide)
    (by decide) hc 0
  have hk : hmacSum lib .SHA256 [97] (stringBytes text)
      = hmacSum lib .SHA256 [97, 0] (stringBytes text) :=
    (hmacSum_key_zero lib .SHA256 [97] (stringBytes text) (by decide)).symm
  rw [hv, if_pos hk, if_pos (by decide)]

/-- C4, amended: for a lawful library, services built by `NewService` with signing keys `K1`
and `K2`, clock readings within the `int64` nanosecond range and an `int64` userID: an access
token issued under `K1` is rejected (error, no claims) under `K2` at every verification time,
provided the HS256 MAC of the token's signing input under `K2` differs from the one under
`K1`. -/
theorem other_key_rejected (lib : Lib) (hl : lib.Lawful) (cfg1 cfg2 : Config)
    (s1 s2 : jwtService) (t1 t2 t3 t4 now : Time) (userID : Int) (role : String)
    (acc ref : String)
    (hs1 : NewService cfg1 = .ok s1) (hs2 : NewService cfg2 = .ok s2)
    (h1 : Time.InRange t1) (h2 : Time.InRange t2) (hu : IsInt64 userID)
    (hc : CreateTokens lib s1 t1 t2 t3 t4 userID role = .ok (acc, ref))
    (hmac : ∀ text,
      (NewWithClaims SigningMethodHS256 (accessClaims s1 t1 t2 userID role)).SigningString lib
        = .ok text →
      hmacSum lib .SHA256 (stringBytes cfg2.SigningKey) (stringBytes text)
        ≠ hmacSum lib .SHA256 (stringBytes cfg1.SigningKey) (stringBytes text)) :
    ∃ e, VerifyAccessToken lib s2 now acc = .error e := by
  obtain ⟨text, ht, hv⟩ := VerifyAccessToken_issued lib hl s1 s2 t1 t2 t3 t4 userID role acc
    ref h1 h2 hu hc now
  obtain ⟨_, _, hk1⟩ := NewService_hours cfg1 s1 hs1
  obtain ⟨_, _, hk2⟩ := NewService_hours cfg2 s2 hs2
  have hne := hmac text ht
  rw [← hk1, ← hk2] at hne
  rw [if_neg (fun e => hne e.symm)] at hv
  exact ⟨_, hv⟩

theorem plainLib_hmacSum_ne (msg : Bytes) :
    hmacSum plainLib .SHA256 (stringBytes "b") msg
      ≠ hmacSum plainLib .SHA256 (stringBytes "a") msg := by
  intro h
  have hb : stringBytes "b" = [98] := by decide
  have ha : stringBytes "a" = [97] := by decide
  have h' := congrArg List.head? h
  simp only [hmacSum, plainLib, hb, ha, HashAlg.BlockSize, List.length_singleton] at h'
  simp at h'
  exact absurd h' (by decide)

/-- Witness of C4, amended: the library `plainLib` and the keys `a` and `b`. -/
theorem other_key_rejected_witness :
    ∃ acc ref,
      CreateTokens plainLib ⟨⟨"a", 1, 72⟩, [97]⟩ 0 0 0 0 42 "admin" = .ok (acc, ref) ∧
      ∃ e, VerifyAccessToken plainLib ⟨⟨"b", 1, 72⟩, [98]⟩ 0 acc = .error e := by
  obtain ⟨acc, ref, hc⟩ := plainLib_CreateTokens ⟨⟨"a", 1, 72⟩, [97]⟩ 0 0 0 0 42 "admin"
  exact ⟨acc, ref, hc,
    other_key_rejected plainLib plainLib_lawful ⟨"a", 1, 72⟩ ⟨"b", 1, 72⟩ _ _ 0 0 0 0 0 42
      "admin" acc ref rfl rfl (by decide) (by decide) (by decide) hc
      (fun text _ => plainLib_hmacSum_ne (stringBytes text))⟩

/-! ## The errors of `VerifyAccessToken` -/

theorem ParseWithClaims_valid (lib : Lib) (now : Time) (tokenString : String)
    (kf : Token → Except GoError Bytes) (token : Token)
    (h : ParseWithClaims lib now tokenString kf = .ok token) : token.Valid = true := by
  unfold ParseWithClaims at h
  split at h
  · cases h
  · split at h
    · cases h
    · dsimp only at h
      split at h
      · cases h
      · split at h
        · cases h
        · split at h
          · cases h
          · cases h
            rfl

theorem VerifyAccessToken_empty (lib : Lib) (s : jwtService) (now : Time) :
    VerifyAccessToken lib s now "" = .error
      { message := "failed to parse token: token is malformed: " ++
          "token contains an invalid number of segments"
        cause := some (.newError "token contains an invalid number of segments"
          .ErrTokenMalformed) } := by
  have e : (GoError.newError "token contains an invalid number of segments"
      .ErrTokenMalformed).Error
      = "token is malformed: token contains an invalid number of segments" := by decide
  have hs : Split "" '.' = [""] := by decide
  simp only [VerifyAccessToken, ParseWithClaims, ParseUnverified, hs, e]
  rfl

/-- C5, counterexample: the empty string and an access token presented at its expiry are
both rejected, with different errors: `VerifyAccessToken` answers the empty string, with
every library, by an error that wraps `token is malformed`, and the expired token, with every
lawful library, by an error that wraps `token has invalid claims: token is expired`; the
messages differ and so do the wrapped causes. -/
theorem uniform_rejection_counterexample :
    (∀ lib : Lib, VerifyAccessToken lib ⟨⟨"k", 1, 72⟩, [107]⟩ 3600000000000 "" = .error
      { message := "failed to parse token: token is malformed: " ++
          "token contains an invalid number of segments"
        cause := some (.newError "token contains an invalid number of segments"
          .ErrTokenMalformed) }) ∧
    (∃ acc ref, CreateTokens plainLib ⟨⟨"k", 1, 72⟩, [107]⟩ 0 0 0 0 42 "admin"
      = .ok (acc, ref)) ∧
    (∀ lib : Lib, lib.Lawful → ∀ acc ref,
      CreateTokens lib ⟨⟨"k", 1, 72⟩, [107]⟩ 0 0 0 0 42 "admin" = .ok (acc, ref) →
      VerifyAccessToken lib ⟨⟨"k", 1, 72⟩, [107]⟩ 3600000000000 acc = .error
        { message := "failed to parse token: token has invalid claims: token is expired"
          cause := some (.newErrorMore "" .ErrTokenInvalidClaims
            (.joined [.ErrTokenExpired])) }) ∧
    ("failed to parse token: token is malformed: " ++
        "token contains an invalid number of segments"
      ≠ "failed to parse token: token has invalid claims: token is expired") ∧
    (GoError.newError "token contains an invalid number of segments" .ErrTokenMalformed
      ≠ GoError.newErrorMore "" .ErrTokenInvalidClaims (.joined [.ErrTokenExpired])) := by
  refine ⟨fun lib => VerifyAccessToken_empty lib _ _,
    plainLib_CreateTokens _ 0 0 0 0 42 "admin", ?_, by decide, by decide⟩
  intro lib hl acc ref hc
  obtain ⟨text, _, hv⟩ := VerifyAccessToken_issued lib hl ⟨⟨"k", 1, 72⟩, [107]⟩
    ⟨⟨"k", 1, 72⟩, [107]⟩ 0 0 0 0 42 "admin" acc ref (by decide) (by decide)
    (by decide) hc 3600000000000
  rw [hv, if_pos rfl, if_neg (by decide)]

/-- C5, amended: every rejection by `VerifyAccessToken` returns no claims and the error
`fmt.Errorf("failed to parse token: %w", cause)`, where `cause` is the error of the parser:
its message is `failed to parse token: ` followed by the message of `cause`, and it wraps
`cause`, which tells why verification failed. The constant error `invalid token` is never
returned. -/
theorem rejection_wraps_cause (lib : Lib) (s : jwtService) (now : Time)
    (tokenString : String) (e : WrapError)
    (h : VerifyAccessToken lib s now tokenString = .error e) :
    ∃ cause, ParseWithClaims lib now tokenString (keyFunc s) = .error cause ∧
      e.message = "failed to parse token: " ++ cause.Error ∧ e.cause = some cause ∧
      e ≠ { message := "invalid token", cause := none } := by
  unfold VerifyAccessToken at h
  cases hp : ParseWithClaims lib now tokenString (keyFunc s) with
  | error cause =>
    simp only [hp, Except.error.injEq] at h
    subst h
    refine ⟨cause, rfl, rfl, rfl, ?_⟩
    intro hne
    have hcause := congrArg WrapError.cause hne
    simp at hcause
  | ok token =>
    have hv := ParseWithClaims_valid lib now tokenString _ token hp
    simp [hp, hv] at h

/-- Witness of C5, amended: the empty string, which every library and service reject. -/
theorem rejection_wraps_cause_witness :
    VerifyAccessToken plainLib ⟨⟨"k", 1, 72⟩, [107]⟩ 0 "" = .error
      { message := "failed to parse token: token is malformed: " ++
          "token contains an invalid number of segments"
        cause := some (.newError "token contains an invalid number of segments"
          .ErrTokenMalformed) } ∧
    ∃ cause, ParseWithClaims plainLib 0 "" (keyFunc ⟨⟨"k", 1, 72⟩, [107]⟩) = .error cause ∧
      "failed to parse token: token is malformed: " ++
          "token contains an invalid number of segments"
        = "failed to parse token: " ++ cause.Error ∧
      some (GoError.newError "token contains an invalid number of segments"
          .ErrTokenMalformed) = some cause :=
  ⟨VerifyAccessToken_empty plainLib _ 0,
    (rejection_wraps_cause plainLib ⟨⟨"k", 1, 72⟩, [107]⟩ 0 "" _
      (VerifyAccessToken_empty plainLib _ 0)).imp fun _ h => ⟨h.1, h.2.1, h.2.2.1⟩⟩
end xauth
